import Mathlib

/-!
Verification development for the BDF stiff-ODE solver of
`src/inc/numerical_solvers/ode/bdfsolver.h` (class `BDFsolver<T>`).

The header declares the solver's tuning constants directly
(`DT_LB_FACTOR`, `DT_UB_FACTOR`, `THRESHOLD`, `QMAX`, `LMAX`,
`MAX_DT_ITER`), which are embedded verbatim below.  The bodies of the
member functions (`compute`, `evalWeights`, `weightedRMSnorm`, the step
controller) live in `detail/bdfsolver.inl`, and the modified
functional/Jacobian classes (`BDFfunctional`, `BDFjacobian`) live in
`equation_system/`, none of which are part of the sources; those parts
are modelled from the specification, as marked in each doc comment.
The scalar template parameter `T` (a floating-point type in the code) is
modelled by the real numbers, and device-resident vectors of length `N`
by functions `Fin N → ℝ`.
-/

open scoped Classical

namespace BDFsolver

/-- Constant accessor `DT_LB_FACTOR()` from bdfsolver.h line 97: returns `100.0`. -/
noncomputable def DT_LB_FACTOR : ℝ := 100.0

/-- Constant accessor `DT_UB_FACTOR()` from bdfsolver.h line 98: returns `0.1`. -/
noncomputable def DT_UB_FACTOR : ℝ := 0.1

/-- Constant accessor `THRESHOLD()` from bdfsolver.h line 99: returns `1.5`. -/
noncomputable def THRESHOLD : ℝ := 1.5

/-- Constant accessor `QMAX()` from bdfsolver.h line 101: the maximum BDF order, `(int)5`. -/
def QMAX : ℤ := 5

/-- Constant accessor `LMAX()` from bdfsolver.h line 102: returns `QMAX() + 1`,
the number of columns of the Nordsieck history array. -/
def LMAX : ℤ := QMAX + 1

/-- Constant accessor `MAX_DT_ITER()` from bdfsolver.h line 103: returns `4`,
the budget of consecutive step-size shrink attempts after nonlinear-solve
non-convergence. -/
def MAX_DT_ITER : ℕ := 4

/-- Modelled from the spec: `weightedRMSnorm(V, weight)` (declared at
bdfsolver.h lines 130-132; its body is in `detail/bdfsolver.inl`, which is not
among the sources).  Spec §4.3: the scalar `sqrt( (1/N) · Σ (V_i·weight_i)^2 )`
over the `N` components of the device-resident vectors. -/
noncomputable def weightedRMSnorm {N : ℕ} (V weight : Fin N → ℝ) : ℝ :=
  Real.sqrt ((∑ i, (V i * weight i) ^ 2) / N)

/-- Configuration errors of the solver (spec §7: detected once at setup,
fatal, never retried). -/
inductive ConfigError where
  | nonpositiveWeightDenominator

/-- Modelled from the spec: `evalWeights(Y, absTol)` (declared at bdfsolver.h
lines 124-127; its body is in `detail/bdfsolver.inl`, not among the sources).
Spec §4.3: elementwise `weight_i = 1/(relTol·|Y_i| + absTol_i)`; a
non-positive denominator is a fatal configuration error, not recoverable. -/
noncomputable def evalWeights {N : ℕ} (relTol : ℝ) (Y absTol : Fin N → ℝ) :
    Except ConfigError (Fin N → ℝ) :=
  if ∀ i, 0 < relTol * |Y i| + absTol i then
    Except.ok fun i => 1 / (relTol * |Y i| + absTol i)
  else
    Except.error ConfigError.nonpositiveWeightDenominator

/-- Modelled from the spec: the scalar `γ = dt · l_1` coupling the implicit
step size into the corrector (spec §4.4), with `l_1` the first L-polynomial
coefficient. -/
noncomputable def gammaBDF (dt l1 : ℝ) : ℝ := dt * l1

/-- Modelled from the spec: the modified functional handed to the nonlinear
solver, `G(u) = (u - ZN_pred_0) - γ·(F(u) - ZN_pred_1)` (class
`BDFfunctional`, declared at bdfsolver.h line 40 and documented there; its
definition in `equation_system/bdffunctional.h` is not among the sources). -/
noncomputable def G {N : ℕ} (g : ℝ) (F : (Fin N → ℝ) → Fin N → ℝ)
    (ZNpred0 ZNpred1 u : Fin N → ℝ) : Fin N → ℝ :=
  (u - ZNpred0) - g • (F u - ZNpred1)

/-- Modelled from the spec: the modified Jacobian handed to the nonlinear
solver, `H(u) = I - γ·J(u)` (class `BDFjacobian`, declared at bdfsolver.h
line 43 and documented there; its definition in
`equation_system/bdfjacobian.h` is not among the sources). -/
noncomputable def H {N : ℕ} (g : ℝ) (J : (Fin N → ℝ) → Matrix (Fin N) (Fin N) ℝ)
    (u : Fin N → ℝ) : Matrix (Fin N) (Fin N) ℝ :=
  1 - g • J u

/-- Fatal integration failures (spec §7): the diagnostic surfaced to the
caller records which retry budget was exhausted and at what simulated time. -/
inductive FatalDiag where
  | nonlinearBudget (t : ℝ)
  | errorTestBudget (t : ℝ)

/-- Modelled from the spec: the per-step numerical outcomes the Step
Controller of `detail/bdfsolver.inl` (not among the sources) reacts to.  The
spec (§4.5) fixes the control policy but leaves the floating-point values
produced by the collaborators abstract; they enter the model as this oracle.
`nlConverges r k` tells whether the nonlinear solve converges on rejection
round `r`, shrink attempt `k`; `errPasses r` is the local-error test's
verdict on round `r`; `nlShrink` is the fixed step-shrink factor used after
nonlinear non-convergence; `errEta r` is the order-specific reduction factor
applied on rejection round `r`; `etaqm1`, `etaq`, `etaqp1` are the three
candidate step-size ratios of OrderStepSelect; `qWaitReset` is the hysteresis
countdown installed after an order change. -/
structure StepEnv where
  nlConverges : ℕ → ℕ → Bool
  errPasses : ℕ → Bool
  nlShrink : ℝ
  errEta : ℕ → ℝ
  etaqm1 : ℝ
  etaq : ℝ
  etaqp1 : ℝ
  qWaitReset : ℕ

/-- The scalar controller state of spec §3: BDF order `q`, order-change
hysteresis countdown `qWait` (`qNextChange` in bdfsolver.h line 53), current
step size `dt`, its cap `dtMax` (bdfsolver.h line 56), current time `t`, and
the internal step counter `nist` (bdfsolver.h line 60). -/
structure CtrlState where
  q : ℤ
  qWait : ℕ
  dt : ℝ
  dtMax : ℝ
  t : ℝ
  nist : ℕ

/-- Modelled from the spec: the nonlinear-solve retry loop of §4.5.
`conv k` is the convergence verdict of shrink attempt `k` (counted from
`k0`), `fuel` the remaining attempt budget; each failed attempt shrinks `dt`
by the fixed factor; `none` means the budget was exhausted. -/
def nlRetryAux (conv : ℕ → Bool) (shrink : ℝ) : ℕ → ℕ → ℝ → Option ℝ
  | _, 0, _ => none
  | k0, fuel + 1, dt =>
      if conv k0 then some dt else nlRetryAux conv shrink (k0 + 1) fuel (shrink * dt)

/-- Modelled from the spec: the nonlinear solve with its full retry budget of
`MAX_DT_ITER` consecutive shrink attempts (spec §4.5 NonlinearSolve). -/
def nlRetry (conv : ℕ → Bool) (shrink dt : ℝ) : Option ℝ :=
  nlRetryAux conv shrink 0 MAX_DT_ITER dt

/-- Modelled from the spec (§4.5 OrderStepSelect): select among the orders
`q-1`, `q`, `q+1` the one maximizing the candidate ratio, subject to: order
cannot exceed `QMAX` or drop below 1, and an increase is only considered
once the hysteresis countdown `qWait` has elapsed. -/
noncomputable def selectNextOrder (q : ℤ) (qWait : ℕ) (em1 e0 ep1 : ℝ) : ℤ :=
  if q < QMAX ∧ qWait = 0 ∧ e0 < ep1 ∧ (1 < q → em1 ≤ ep1) then q + 1
  else if 1 < q ∧ e0 < em1 then q - 1
  else q

/-- Modelled from the spec (§4.5 Rejected): the order is not changed on the
first rejection of a step, and is forced down — never below 1 — after
repeated consecutive rejections. -/
def orderAfterReject (q : ℤ) (consecFails : ℕ) : ℤ :=
  if 2 ≤ consecFails ∧ 1 < q then q - 1 else q

/-- Modelled from the spec: the lower bound on the next step size guarding
against pathological shrink, expressed through the `DT_LB_FACTOR` /
`DT_UB_FACTOR` constants of bdfsolver.h lines 97-98 (the spec names both but
fixes no formula; the model takes the factor `DT_UB_FACTOR = 0.1` of the
current step). -/
noncomputable def dtLowerBound (dt : ℝ) : ℝ := DT_UB_FACTOR * dt

/-- Modelled from the spec (§4.5 OrderStepSelect): if the best candidate
ratio is below `THRESHOLD` the step size is left unchanged; otherwise
`dtNext = eta·dt`, clamped to `dtMax` above and to the shrink guard below. -/
noncomputable def chooseDtNext (dt dtMax eta : ℝ) : ℝ :=
  if eta < THRESHOLD then dt
  else min dtMax (max (dtLowerBound dt) (eta * dt))

/-- Modelled from the spec (§4.5 OrderStepSelect): on an accepted step, pick
the next order and next step size; the hysteresis countdown is reinstalled on
an order change and counted down otherwise. -/
noncomputable def orderStepSelect (env : StepEnv) (s : CtrlState) : CtrlState :=
  { s with
    q := selectNextOrder s.q s.qWait env.etaqm1 env.etaq env.etaqp1
    dt := chooseDtNext s.dt s.dtMax (max env.etaqm1 (max env.etaq env.etaqp1))
    qWait :=
      if selectNextOrder s.q s.qWait env.etaqm1 env.etaq env.etaqp1 = s.q then
        s.qWait - 1
      else env.qWaitReset }

/-- Modelled from the spec (§4.5): one integration step, as a sequence of
rejection rounds.  Each round runs the nonlinear solve with its shrink-retry
budget (fatal when exhausted), then the local error test; a pass commits the
step (`t += dt`, `nist + 1`) and runs order/step selection; a failure
reduces the step size, forces the order down after repeated consecutive
rejections, and retries, up to the consecutive-failure budget `b` (fatal when
exhausted). -/
noncomputable def stepRounds (env : StepEnv) : ℕ → ℕ → CtrlState → Except FatalDiag CtrlState
  | 0, _, s => Except.error (FatalDiag.errorTestBudget s.t)
  | b + 1, round, s =>
    match nlRetry (env.nlConverges round) env.nlShrink s.dt with
    | none => Except.error (FatalDiag.nonlinearBudget s.t)
    | some dtc =>
      if env.errPasses round then
        Except.ok (orderStepSelect env { s with dt := dtc, t := s.t + dtc, nist := s.nist + 1 })
      else
        stepRounds env b (round + 1)
          { s with dt := env.errEta round * dtc, q := orderAfterReject s.q (round + 1) }

/-- Spec §4.5 FirstStep: the initial controller state sets `q = 1`. -/
def initCtrl (dt0 dtMax0 t0 : ℝ) (qWait0 : ℕ) : CtrlState :=
  { q := 1, qWait := qWait0, dt := dt0, dtMax := dtMax0, t := t0, nist := 0 }

/-- The controller states reachable from the initial state under successful
integration steps, for a given oracle stream and consecutive-failure
budget. -/
inductive ReachableCtrl (envs : ℕ → StepEnv) (errBudget : ℕ) : CtrlState → Prop where
  | init (dt0 dtMax0 t0 : ℝ) (qWait0 : ℕ) :
      ReachableCtrl envs errBudget (initCtrl dt0 dtMax0 t0 qWait0)
  | step {s s' : CtrlState} (n : ℕ) :
      ReachableCtrl envs errBudget s →
      stepRounds (envs n) errBudget 0 s = Except.ok s' →
      ReachableCtrl envs errBudget s'

/-- Modelled from the spec: the driver loop of `compute` (declared at
bdfsolver.h lines 112-118; its body in `detail/bdfsolver.inl` is not among
the sources).  Spec §4.5 Accepted/Terminal and §7: loop back to Predict
until `t >= tmax`, then terminate successfully; a fatal diagnostic from a
step is surfaced unchanged.  `fuel` bounds the number of accepted steps the
model examines; `none` means the bound was hit before a terminal outcome. -/
noncomputable def computeLoop (envs : ℕ → StepEnv) (errBudget : ℕ) (tmax : ℝ) :
    ℕ → CtrlState → Option (Except FatalDiag CtrlState)
  | 0, _ => none
  | fuel + 1, s =>
    if tmax ≤ s.t then some (Except.ok s)
    else
      match stepRounds (envs fuel) errBudget 0 s with
      | Except.error d => some (Except.error d)
      | Except.ok s' => computeLoop envs errBudget tmax fuel s'

/-- A fixed benign oracle used to instantiate the model at concrete inputs:
the nonlinear solve always converges immediately and the error test always
passes; all ratio oracles are 1. -/
noncomputable def envBenign : StepEnv :=
  { nlConverges := fun _ _ => true
    errPasses := fun _ => true
    nlShrink := 1
    errEta := fun _ => 1
    etaqm1 := 1
    etaq := 1
    etaqp1 := 1
    qWaitReset := 2 }

/-- A fixed adverse oracle used to instantiate the model at concrete inputs:
the nonlinear solve always converges immediately but the error test always
fails. -/
noncomputable def envErrFail : StepEnv :=
  { nlConverges := fun _ _ => true
    errPasses := fun _ => false
    nlShrink := 1
    errEta := fun _ => 1
    etaqm1 := 1
    etaq := 1
    etaqp1 := 1
    qWaitReset := 2 }

/-! ## Theorems -/

/-- C10: for every instantiation of `BDFsolver`, the constant accessor
`LMAX()` returns `QMAX() + 1`, i.e. 6, so the Nordsieck history has exactly
one more column than the maximum BDF order. -/
theorem claim_C10_LMAX_eq_QMAX_succ : LMAX = QMAX + 1 ∧ LMAX = 6 := by
  constructor <;> decide

/-- C2: for every vector `V` of length `N` and every weight vector,
`weightedRMSnorm(V, weight)` returns `sqrt( (1/N) · Σ (V_i·weight_i)^2 )`. -/
theorem claim_C2_weightedRMSnorm_formula {N : ℕ} (V weight : Fin N → ℝ) :
    weightedRMSnorm V weight = Real.sqrt ((1 / (N : ℝ)) * ∑ i, (V i * weight i) ^ 2) := by
  rw [weightedRMSnorm, one_div, inv_mul_eq_div]

/-- C3: whenever every denominator `relTol·|Y_i| + absTol_i` is positive,
`evalWeights` returns the weight vector with `weight_i` its reciprocal;
whenever some denominator is non-positive, it returns the fatal
configuration error instead of a weight vector. -/
theorem claim_C3_evalWeights_spec {N : ℕ} (relTol : ℝ) (Y absTol : Fin N → ℝ) :
    ((∀ i, 0 < relTol * |Y i| + absTol i) →
      evalWeights relTol Y absTol = Except.ok fun i => 1 / (relTol * |Y i| + absTol i))
    ∧ ((∃ i, relTol * |Y i| + absTol i ≤ 0) →
      evalWeights relTol Y absTol = Except.error ConfigError.nonpositiveWeightDenominator) := by
  constructor
  · intro h
    rw [evalWeights, if_pos h]
  · rintro ⟨i, hi⟩
    rw [evalWeights, if_neg]
    intro h
    exact absurd (h i) (not_lt.2 hi)

/-- Witness for C3 at `N = 1`, `relTol = 1`, `Y = (2)`, `absTol = (1)`. -/
theorem claim_C3_evalWeights_witness :
    evalWeights (N := 1) 1 (fun _ => 2) (fun _ => 1)
      = Except.ok fun _ => 1 / (1 * |(2 : ℝ)| + 1) := by
  exact (claim_C3_evalWeights_spec (N := 1) 1 (fun _ => 2) (fun _ => 1)).1
    (fun _ => by norm_num)

/-- C4: the adapter hands the nonlinear solver the modified functional
`G(u) = (u - ZN_pred_0) - γ·(F(u) - ZN_pred_1)` and the modified Jacobian
`H(u) = I - γ·J(u)` with `γ = dt · l_1`, componentwise. -/
theorem claim_C4_modified_functional_jacobian {N : ℕ} (dt l1 : ℝ)
    (F : (Fin N → ℝ) → Fin N → ℝ) (J : (Fin N → ℝ) → Matrix (Fin N) (Fin N) ℝ)
    (ZNpred0 ZNpred1 u : Fin N → ℝ) :
    (∀ i, G (gammaBDF dt l1) F ZNpred0 ZNpred1 u i
        = (u i - ZNpred0 i) - dt * l1 * (F u i - ZNpred1 i))
    ∧ (∀ i j, H (gammaBDF dt l1) J u i j
        = (if i = j then (1 : ℝ) else 0) - dt * l1 * J u i j) := by
  constructor
  · intro i
    simp [G, gammaBDF]
  · intro i j
    simp [H, gammaBDF, Matrix.sub_apply, Matrix.smul_apply, Matrix.one_apply, smul_eq_mul]

/-- C9: the weighted RMS norm of the all-zero vector is 0 (in particular on
`Y - Y` with any weights `evalWeights` produced), and the norm is invariant
under a permutation of the components that preserves the weights. -/
theorem claim_C9_norm_algebra {N : ℕ} (V Y weight : Fin N → ℝ)
    (σ : Equiv.Perm (Fin N)) (hw : ∀ i, weight (σ i) = weight i) :
    weightedRMSnorm (fun _ => (0 : ℝ)) weight = 0
    ∧ (∀ (relTol : ℝ) (absTol w : Fin N → ℝ),
        evalWeights relTol Y absTol = Except.ok w →
        weightedRMSnorm (fun i => Y i - Y i) w = 0)
    ∧ weightedRMSnorm (fun i => V (σ i)) weight = weightedRMSnorm V weight := by
  refine ⟨?_, ?_, ?_⟩
  · simp [weightedRMSnorm]
  · intro relTol absTol w _
    simp [weightedRMSnorm]
  · have hsum : ∑ i, (V (σ i) * weight i) ^ 2 = ∑ i, (V i * weight i) ^ 2 := by
      calc ∑ i, (V (σ i) * weight i) ^ 2
          = ∑ i, (V (σ i) * weight (σ i)) ^ 2 :=
            Finset.sum_congr rfl fun i _ => by rw [hw]
        _ = ∑ i, (V i * weight i) ^ 2 := Equiv.sum_comp σ fun j => (V j * weight j) ^ 2
    unfold weightedRMSnorm
    rw [hsum]

/-- Witness for C9 at `N = 2`, constant weights, `σ` the swap of the two
components, `V = (3,4)`. -/
theorem claim_C9_norm_algebra_witness :
    weightedRMSnorm (N := 2) (fun _ => (0 : ℝ)) (fun _ => 1) = 0
    ∧ weightedRMSnorm (N := 2) (fun i => (![3, 4] : Fin 2 → ℝ) (Equiv.swap 0 1 i)) (fun _ => 1)
      = weightedRMSnorm (![3, 4] : Fin 2 → ℝ) (fun _ => 1) := by
  have h := claim_C9_norm_algebra (N := 2) ![3, 4] (fun _ => 0) (fun _ => 1)
    (Equiv.swap 0 1) (fun _ => rfl)
  exact ⟨h.1, h.2.2⟩

/-- Order selection maps orders in `[1, QMAX]` to orders in `[1, QMAX]`. -/
theorem selectNextOrder_bounds (q : ℤ) (w : ℕ) (a b c : ℝ)
    (h1 : 1 ≤ q) (h2 : q ≤ QMAX) :
    1 ≤ selectNextOrder q w a b c ∧ selectNextOrder q w a b c ≤ QMAX := by
  unfold selectNextOrder
  simp only [QMAX] at h2 ⊢
  split
  · rename_i h
    omega
  · split
    · rename_i h
      omega
    · omega

/-- The forced order decrease after consecutive rejections keeps the order
in `[1, QMAX]`. -/
theorem orderAfterReject_bounds (q : ℤ) (n : ℕ) (h1 : 1 ≤ q) (h2 : q ≤ QMAX) :
    1 ≤ orderAfterReject q n ∧ orderAfterReject q n ≤ QMAX := by
  unfold orderAfterReject
  simp only [QMAX] at h2 ⊢
  split
  · rename_i h
    omega
  · omega

/-- A successful step keeps the BDF order in `[1, QMAX]`, through every
rejection round it absorbs. -/
theorem stepRounds_q_bounds (env : StepEnv) (b round : ℕ) (s s' : CtrlState)
    (h1 : 1 ≤ s.q) (h2 : s.q ≤ QMAX)
    (h : stepRounds env b round s = Except.ok s') :
    1 ≤ s'.q ∧ s'.q ≤ QMAX := by
  induction b generalizing round s with
  | zero => exact absurd h (by simp [stepRounds])
  | succ b ih =>
    rw [stepRounds] at h
    cases hnl : nlRetry (env.nlConverges round) env.nlShrink s.dt with
    | none =>
      rw [hnl] at h
      exact absurd h (by simp)
    | some dtc =>
      rw [hnl] at h
      cases hp : env.errPasses round with
      | true =>
        simp only [hp, if_true] at h
        have hq : s' = orderStepSelect env { s with dt := dtc, t := s.t + dtc, nist := s.nist + 1 } := by
          exact (Except.ok.inj h).symm
        subst hq
        exact selectNextOrder_bounds s.q s.qWait env.etaqm1 env.etaq env.etaqp1 h1 h2
      | false =>
        simp only [hp, Bool.false_eq_true, if_false] at h
        have hb := orderAfterReject_bounds s.q (round + 1) h1 h2
        exact ih (round + 1) _ hb.1 hb.2 h

/-- C5: in every reachable state of the Step Controller the BDF order `q`
satisfies `1 ≤ q ≤ QMAX`; no transition — order selection on acceptance or
forced decreases after rejections — leaves that range. -/
theorem claim_C5_order_in_range (envs : ℕ → StepEnv) (errBudget : ℕ) (s : CtrlState)
    (h : ReachableCtrl envs errBudget s) : 1 ≤ s.q ∧ s.q ≤ QMAX := by
  induction h with
  | init dt0 dtMax0 t0 qWait0 => exact ⟨le_refl 1, show (1 : ℤ) ≤ 5 by decide⟩
  | step n hr hstep ih => exact stepRounds_q_bounds _ _ _ _ _ ih.1 ih.2 hstep

/-- Witness for C5 at the initial controller state. -/
theorem claim_C5_order_in_range_witness :
    1 ≤ (initCtrl 1 10 0 2).q ∧ (initCtrl 1 10 0 2).q ≤ QMAX :=
  claim_C5_order_in_range (fun _ => envBenign) 3 _ (ReachableCtrl.init 1 10 0 2)

/-- The clamped next step size stays between the shrink guard and `dtMax`. -/
theorem chooseDtNext_bounds (dt dtMax eta : ℝ) (hdt : 0 < dt) (hle : dt ≤ dtMax) :
    chooseDtNext dt dtMax eta ≤ dtMax ∧ dtLowerBound dt ≤ chooseDtNext dt dtMax eta := by
  have hlb : dtLowerBound dt ≤ dt := by
    unfold dtLowerBound DT_UB_FACTOR
    nlinarith
  unfold chooseDtNext
  split
  · exact ⟨hle, hlb⟩
  · exact ⟨min_le_left _ _, le_min (hlb.trans hle) (le_max_left _ _)⟩

/-- C6: after every OrderStepSelect transition the chosen step size never
exceeds `dtMax` nor falls below the shrink guard; a best candidate ratio
below `THRESHOLD` leaves the step size unchanged, and otherwise
`dtNext = eta·dt` clamped to `dtMax` and to the lower bound. -/
theorem claim_C6_step_size_clamped (env : StepEnv) (s : CtrlState)
    (dt dtMax em1 e0 ep1 : ℝ) (hdt : 0 < dt) (hle : dt ≤ dtMax)
    (hs : 0 < s.dt) (hsle : s.dt ≤ s.dtMax) :
    (chooseDtNext dt dtMax (max em1 (max e0 ep1)) ≤ dtMax
      ∧ dtLowerBound dt ≤ chooseDtNext dt dtMax (max em1 (max e0 ep1)))
    ∧ (max em1 (max e0 ep1) < THRESHOLD →
        chooseDtNext dt dtMax (max em1 (max e0 ep1)) = dt)
    ∧ (THRESHOLD ≤ max em1 (max e0 ep1) →
        chooseDtNext dt dtMax (max em1 (max e0 ep1))
          = min dtMax (max (dtLowerBound dt) (max em1 (max e0 ep1) * dt)))
    ∧ ((orderStepSelect env s).dt ≤ s.dtMax
      ∧ dtLowerBound s.dt ≤ (orderStepSelect env s).dt) := by
  refine ⟨chooseDtNext_bounds _ _ _ hdt hle, ?_, ?_, ?_⟩
  · intro hb
    rw [chooseDtNext, if_pos hb]
  · intro hb
    rw [chooseDtNext, if_neg (not_lt.2 hb)]
  · exact chooseDtNext_bounds s.dt s.dtMax _ hs hsle

/-- Witness for C6 at `dt = 1`, `dtMax = 2`, all candidate ratios 1, and the
initial controller state. -/
theorem claim_C6_step_size_clamped_witness :
    chooseDtNext 1 2 (max 1 (max 1 1)) = 1 := by
  have h := claim_C6_step_size_clamped envBenign (initCtrl 1 10 0 2) 1 2 1 1 1
    (by norm_num) (by norm_num) (by norm_num [initCtrl]) (by norm_num [initCtrl])
  exact h.2.1 (by simp only [max_self]; norm_num [THRESHOLD])

/-- When every attempt in the remaining budget fails, the nonlinear retry
loop exhausts its budget. -/
theorem nlRetryAux_eq_none (conv : ℕ → Bool) (shrink : ℝ) (fuel : ℕ) :
    ∀ (k0 : ℕ) (dt : ℝ), (∀ j, j < fuel → conv (k0 + j) = false) →
      nlRetryAux conv shrink k0 fuel dt = none := by
  induction fuel with
  | zero => intro k0 dt _; rfl
  | succ fuel ih =>
    intro k0 dt h
    rw [nlRetryAux]
    have h0 : conv k0 = false := by simpa using h 0 (Nat.succ_pos _)
    rw [h0]
    simp only [Bool.false_eq_true, if_false]
    refine ih (k0 + 1) (shrink * dt) fun j hj => ?_
    have harith : k0 + 1 + j = k0 + (j + 1) := by omega
    rw [harith]
    exact h (j + 1) (by omega)

/-- A converged result of the nonlinear retry loop is produced within the
budget, after some number `j` of consecutive failed, step-shrinking
attempts. -/
theorem nlRetryAux_eq_some (conv : ℕ → Bool) (shrink : ℝ) (fuel : ℕ) :
    ∀ (k0 : ℕ) (dt d : ℝ), nlRetryAux conv shrink k0 fuel dt = some d →
      ∃ j, j < fuel ∧ conv (k0 + j) = true ∧ (∀ i, i < j → conv (k0 + i) = false)
        ∧ d = shrink ^ j * dt := by
  induction fuel with
  | zero => intro k0 dt d h; exact absurd h (by simp [nlRetryAux])
  | succ fuel ih =>
    intro k0 dt d h
    rw [nlRetryAux] at h
    cases hc : conv k0 with
    | true =>
      rw [hc] at h
      simp only [if_true] at h
      refine ⟨0, Nat.succ_pos _, by simpa using hc, fun i hi => absurd hi (Nat.not_lt_zero i), ?_⟩
      rw [pow_zero, one_mul]
      exact (Option.some.inj h).symm
    | false =>
      rw [hc] at h
      simp only [Bool.false_eq_true, if_false] at h
      obtain ⟨j, hj, hct, hprev, hd⟩ := ih (k0 + 1) (shrink * dt) d h
      refine ⟨j + 1, by omega, ?_, ?_, ?_⟩
      · have harith : k0 + (j + 1) = k0 + 1 + j := by omega
        rw [harith]
        exact hct
      · intro i hi
        cases i with
        | zero => simpa using hc
        | succ i =>
          have harith : k0 + (i + 1) = k0 + 1 + i := by omega
          rw [harith]
          exact hprev i (by omega)
      · rw [hd, pow_succ]
        ring

/-- When the first attempt converges, the nonlinear retry loop returns the
current step size unchanged. -/
theorem nlRetryAux_first (conv : ℕ → Bool) (shrink : ℝ) (k0 fuel : ℕ) (dt : ℝ)
    (h : conv k0 = true) :
    nlRetryAux conv shrink k0 (fuel + 1) dt = some dt := by
  rw [nlRetryAux, h]
  simp

/-- C7: on nonlinear-solve non-convergence the step is retried with `dt`
shrunk by the fixed factor; at most `MAX_DT_ITER` (4) consecutive shrink
attempts are performed, and exhausting that budget makes the Step
Controller surface the fatal nonlinear-budget diagnostic. -/
theorem claim_C7_nonlinear_retry_budget (conv : ℕ → Bool) (shrink dt : ℝ)
    (env : StepEnv) (b round : ℕ) (s : CtrlState) :
    (∀ d, nlRetry conv shrink dt = some d →
      ∃ k, k < MAX_DT_ITER ∧ conv k = true ∧ (∀ j, j < k → conv j = false)
        ∧ d = shrink ^ k * dt)
    ∧ ((∀ k, k < MAX_DT_ITER → conv k = false) → nlRetry conv shrink dt = none)
    ∧ ((∀ k, k < MAX_DT_ITER → env.nlConverges round k = false) →
        stepRounds env (b + 1) round s = Except.error (FatalDiag.nonlinearBudget s.t)) := by
  refine ⟨?_, ?_, ?_⟩
  · intro d h
    obtain ⟨j, hj, hct, hprev, hd⟩ := nlRetryAux_eq_some conv shrink MAX_DT_ITER 0 dt d h
    exact ⟨j, hj, by simpa using hct, fun i hi => by simpa using hprev i hi, hd⟩
  · intro h
    exact nlRetryAux_eq_none conv shrink MAX_DT_ITER 0 dt fun j hj => by simpa using h j hj
  · intro h
    rw [stepRounds]
    rw [show nlRetry (env.nlConverges round) env.nlShrink s.dt = none from
      nlRetryAux_eq_none _ _ MAX_DT_ITER 0 s.dt fun j hj => by simpa using h j hj]

/-- Witness for C7: a nonlinear solve that never converges exhausts the
budget. -/
theorem claim_C7_nonlinear_retry_budget_witness :
    nlRetry (fun _ => false) 1 1 = none :=
  (claim_C7_nonlinear_retry_budget (fun _ => false) 1 1 envBenign 0 0
    (initCtrl 1 10 0 2)).2.1 fun _ _ => rfl

/-- C8: when the local error test fails on every retry, the Step Controller
runs out of its consecutive-failure budget and reaches the fatal
error-test-budget diagnostic (at the unchanged simulated time); the
Rejected-to-Predict loop never iterates beyond the budget. -/
theorem claim_C8_error_test_budget_fatal (env : StepEnv) (b round : ℕ) (s : CtrlState)
    (hfail : ∀ r, env.errPasses r = false)
    (hconv : ∀ r, env.nlConverges r 0 = true) :
    stepRounds env b round s = Except.error (FatalDiag.errorTestBudget s.t) := by
  induction b generalizing round s with
  | zero => rfl
  | succ b ih =>
    rw [stepRounds]
    rw [show nlRetry (env.nlConverges round) env.nlShrink s.dt = some s.dt from
      nlRetryAux_first _ _ 0 3 s.dt (hconv round)]
    rw [hfail round]
    simp only [Bool.false_eq_true, if_false]
    exact ih (round + 1) _

/-- Witness for C8: with an always-failing error test and budget 2, the
fatal error-test diagnostic is reached at the initial time. -/
theorem claim_C8_error_test_budget_fatal_witness :
    stepRounds envErrFail 2 0 (initCtrl 1 10 0 2)
      = Except.error (FatalDiag.errorTestBudget (initCtrl 1 10 0 2).t) :=
  claim_C8_error_test_budget_fatal envErrFail 2 0 (initCtrl 1 10 0 2)
    (fun _ => rfl) (fun _ => rfl)

/-- C1: whenever the compute loop reaches a terminal outcome, that outcome
is either success with the state integrated to `tmax`, or a fatal
diagnostic naming the exhausted retry budget and the simulated time; a
state not yet integrated to `tmax` is never returned as success. -/
theorem claim_C1_two_terminal_outcomes (envs : ℕ → StepEnv) (errBudget : ℕ)
    (tmax : ℝ) (fuel : ℕ) (s : CtrlState) (r : Except FatalDiag CtrlState)
    (h : computeLoop envs errBudget tmax fuel s = some r) :
    (∃ s', r = Except.ok s' ∧ tmax ≤ s'.t)
    ∨ (∃ t', r = Except.error (FatalDiag.nonlinearBudget t')
        ∨ r = Except.error (FatalDiag.errorTestBudget t')) := by
  induction fuel generalizing s with
  | zero => exact absurd h (by simp [computeLoop])
  | succ fuel ih =>
    rw [computeLoop] at h
    by_cases ht : tmax ≤ s.t
    · rw [if_pos ht] at h
      have hr : Except.ok s = r := Option.some.inj h
      exact Or.inl ⟨s, hr.symm, ht⟩
    · rw [if_neg ht] at h
      cases hst : stepRounds (envs fuel) errBudget 0 s with
      | error d =>
        rw [hst] at h
        have hr : Except.error d = r := Option.some.inj h
        cases d with
        | nonlinearBudget t' => exact Or.inr ⟨t', Or.inl hr.symm⟩
        | errorTestBudget t' => exact Or.inr ⟨t', Or.inr hr.symm⟩
      | ok s' =>
        rw [hst] at h
        exact ih s' h

/-- Witness for C1: a run already at the target time terminates successfully
with the integrated state. -/
theorem claim_C1_two_terminal_outcomes_witness :
    (∃ s', (Except.ok (initCtrl 1 10 0 2) : Except FatalDiag CtrlState) = Except.ok s'
        ∧ (0 : ℝ) ≤ s'.t)
    ∨ (∃ t', (Except.ok (initCtrl 1 10 0 2) : Except FatalDiag CtrlState)
          = Except.error (FatalDiag.nonlinearBudget t')
        ∨ (Except.ok (initCtrl 1 10 0 2) : Except FatalDiag CtrlState)
          = Except.error (FatalDiag.errorTestBudget t')) := by
  refine claim_C1_two_terminal_outcomes (fun _ => envBenign) 3 0 1 (initCtrl 1 10 0 2)
    (Except.ok (initCtrl 1 10 0 2)) ?_
  show computeLoop (fun _ => envBenign) 3 0 (0 + 1) (initCtrl 1 10 0 2) = _
  rw [computeLoop, if_pos (show (0 : ℝ) ≤ (initCtrl 1 10 0 2).t from le_refl 0)]

end BDFsolver
